import Mathlib

/-!
Shallow embedding of the audio-php utility scripts
(src/Utility/audio_splitter.py, audio_details.py, audio_convertor.py,
stt_error_rate.py) and proofs of the spec claims about them.

Python floats are modelled as exact rationals, byte counts as naturals,
Python ints as integers.  A Python expression that can raise
ZeroDivisionError or ValueError is modelled in the Except monad, with an
error returned exactly where the Python runtime would raise.
-/

namespace AudioPhp

/-- Model of str.lstrip with a single strip character: removes every
leading occurrence of that character. -/
def pyLstrip (c : Char) (l : List Char) : List Char :=
  l.dropWhile (fun x => x = c)

/-- Index of the last occurrence of a character in a list, as in the
Python str.rfind method (none when absent). -/
def rfindIdx (c : Char) (l : List Char) : Option Nat :=
  (l.reverse.findIdx? (fun x => x = c)).map (fun j => l.length - 1 - j)

/-- Model of os.path.splitext applied to a basename (a path with no
directory separator): splits at the last dot, except that a name whose
every character before that dot is itself a dot gets an empty
extension. -/
def splitextBase (l : List Char) : List Char × List Char :=
  match rfindIdx '.' l with
  | none => (l, [])
  | some i =>
      if (l.take i).all (fun c => c = '.') then (l, [])
      else (l.take i, l.drop i)

/-- Model of os.path.basename for a POSIX path: everything after the
last slash. -/
def pyBasename (l : List Char) : List Char :=
  match rfindIdx '/' l with
  | none => l
  | some i => l.drop (i + 1)

/-- Model of os.path.dirname for a POSIX path: everything up to and
including the last slash, with trailing slashes stripped unless the
result consists only of slashes. -/
def pyDirname (l : List Char) : List Char :=
  match rfindIdx '/' l with
  | none => []
  | some i =>
      let head := l.take (i + 1)
      if head ≠ [] ∧ ¬ head.all (fun c => c = '/') then
        (head.reverse.dropWhile (fun c => c = '/')).reverse
      else head

/-- Numeric value of a decimal digit string, as computed by the Python
int constructor on a string of digits. -/
def parseDigits (l : List Char) : Nat :=
  l.foldl (fun acc c => 10 * acc + (c.toNat - 48)) 0

/-- Model of the Python int constructor on a string: succeeds on a
nonempty all-digit string, raises ValueError otherwise (signs and
surrounding whitespace are not needed by any caller modelled here). -/
def pyInt (l : List Char) : Except String Int :=
  if l ≠ [] ∧ l.all Char.isDigit then .ok (parseDigits l)
  else .error ("invalid literal for int")

/-- In-memory decoded audio file, the AudioHandle of the spec together
with the on-disk facts the utilities read: pydub exposes
duration_seconds, channels, frame_rate and frame_width; os.path.getsize
gives the byte size; the path is kept alongside. -/
structure AudioFile where
  filepath : String
  byteSize : Nat
  durationSeconds : ℚ
  channels : Nat
  frameRate : Nat
  frameWidth : Nat
deriving DecidableEq, Repr

/-- One exported chunk: its output path, the format string passed to
export, and the millisecond slice bounds taken from the decoded audio. -/
structure ChunkFile where
  path : String
  exportFormat : String
  sliceStart : Int
  sliceEnd : Int
deriving DecidableEq, Repr

/-- Values computed by one successful run of split_file_by_size: the
ChunkPlan numbers of the spec and the produced chunk files in order. -/
structure SplitResult where
  msPerChunk : Int
  numChunks : Int
  chunks : List ChunkFile
deriving DecidableEq, Repr

/-- Model of split_file_by_size from audio_splitter.py with an integer
chunk_size.  file_size_kb is byte size over 1024, duration is
duration_seconds times 1000; ms_per_chunk is ceil of their quotient
times chunk_size and num_chunks is ceil of duration over ms_per_chunk.
Each division that Python would perform on a zero divisor returns the
ZeroDivisionError message instead.  The loop slices
milliseconds i times ms_per_chunk up to i plus one times ms_per_chunk
and exports to a path built from the directory, a Unix timestamp, the
basename root, the 1-based index and the dot-stripped extension. -/
def split_file_by_size (f : AudioFile) (directory : String) (chunk_size : Int)
    (timestamp : Nat) : Except String SplitResult :=
  let file_size_kb : ℚ := (f.byteSize : ℚ) / 1024
  let duration : ℚ := f.durationSeconds * 1000
  if file_size_kb = 0 then .error ("division by zero") else
  let ms_per_chunk : Int := ⌈duration / file_size_kb⌉ * chunk_size
  if ms_per_chunk = 0 then .error ("division by zero") else
  let num_chunks : Int := ⌈duration / (ms_per_chunk : ℚ)⌉
  let base := pyBasename f.filepath.data
  let file_name := String.mk (splitextBase base).1
  let extension := String.mk (pyLstrip '.' (splitextBase base).2)
  let chunks := (List.range num_chunks.toNat).map (fun (i : Nat) =>
    { path := directory ++ toString timestamp ++ "_" ++ file_name ++
        "_chunk_" ++ toString (i + 1) ++ "." ++ extension
      exportFormat := extension
      sliceStart := (i : Int) * ms_per_chunk
      sliceEnd := ((i : Int) + 1) * ms_per_chunk : ChunkFile })
  .ok { msPerChunk := ms_per_chunk, numChunks := num_chunks, chunks := chunks }

/-- Number of repetitions the command line path feeds to string
repetition: ceil of duration_ms over file_size_kb. -/
def cliReps (f : AudioFile) : Int :=
  ⌈(f.durationSeconds * 1000) / ((f.byteSize : ℚ) / 1024)⌉

/-- Model of the ms_per_chunk computation as reached from the command
line of audio_splitter.py, where chunk_size arrives as a string
(argparse type str) and is passed to split_file_by_size unconverted:
the Python product of the int repetition count with the string is
sequence repetition, and the int constructor then parses the repeated
digit string. -/
def cliMsPerChunk (f : AudioFile) (chunkSizeStr : String) : Except String Int :=
  if ((f.byteSize : ℚ) / 1024) = 0 then .error ("division by zero") else
  pyInt (String.join (List.replicate (cliReps f).toNat chunkSizeStr)).data

/-- Mapping returned by get_audio_details, with one field per key of the
Python dictionary, in its insertion order. -/
structure FileDetails where
  filepath : String
  dirpath : String
  basename : String
  filename : String
  extension : String
  mime_type : Option String
  filesize : ℚ
  duration : ℚ
  bit_rate : Nat
  sample_rate : Nat
  channels : Nat
deriving DecidableEq, Repr

/-- Model of get_audio_details from audio_details.py.  The decoded
pydub attributes and the byte size live in the AudioFile record; the
MIME type guessed by the mimetypes collaborator is passed in, since it
is a table lookup external to this repository. -/
def get_audio_details (f : AudioFile) (mimeGuess : Option String) : FileDetails :=
  let base := pyBasename f.filepath.data
  { filepath := f.filepath
    dirpath := String.mk (pyDirname f.filepath.data)
    basename := String.mk base
    filename := String.mk (splitextBase base).1
    extension := String.mk (pyLstrip '.' (splitextBase base).2)
    mime_type := mimeGuess
    filesize := (f.byteSize : ℚ) / 1024
    duration := f.durationSeconds
    bit_rate := f.frameRate * f.frameWidth * 8
    sample_rate := f.frameRate
    channels := f.channels }

/-- Whitespace word splitting as the jiwer default transformation
performs it: split on spaces and drop the empty pieces. -/
def pyWords (s : String) : List (List Char) :=
  (s.data.splitOn ' ').filter (fun w => w ≠ [])

/-- Word-level Levenshtein edit distance between two token lists. -/
def lev : List (List Char) → List (List Char) → Nat
  | [], ys => ys.length
  | x :: xs, [] => (x :: xs).length
  | x :: xs, y :: ys =>
      if x = y then lev xs ys
      else 1 + min (lev xs (y :: ys)) (min (lev (x :: xs) ys) (lev xs ys))

/-- Modelled from the spec: the jiwer word-alignment collaborator is
not part of this repository, so its wer function is taken from the
glossary of the spec, the edit distance between the reference and
hypothesis word sequences normalized by the reference length. -/
def jiwerWer (reference hypothesis : String) : ℚ :=
  (lev (pyWords reference) (pyWords hypothesis) : ℚ) / ((pyWords reference).length : ℚ)

/-- Model of compute_wer from stt_error_rate.py, parameterized by the
word-alignment collaborator so that the short circuit on an empty
input can be shown not to consult it: if either string has length
zero the function returns 100, otherwise it multiplies the
collaborator ratio by 100. -/
def compute_wer (werFn : String → String → ℚ) (reference hypothesis : String) : ℚ :=
  if reference.length = 0 ∨ hypothesis.length = 0 then 100
  else werFn reference hypothesis * 100

/-- Rendering of the details dictionary as the key:value lines the
script prints, in dictionary insertion order. -/
def renderDetails (d : FileDetails) : List String :=
  [ "filepath:" ++ d.filepath
  , "dirpath:" ++ d.dirpath
  , "basename:" ++ d.basename
  , "filename:" ++ d.filename
  , "extension:" ++ d.extension
  , "mime_type:" ++ (match d.mime_type with | some m => m | none => "None")
  , "filesize:" ++ toString d.filesize
  , "duration:" ++ toString d.duration
  , "bit_rate:" ++ toString d.bit_rate
  , "sample_rate:" ++ toString d.sample_rate
  , "channels:" ++ toString d.channels ]

/-- Outcome of one command invocation: the lines printed to standard
output and the process exit status. -/
structure CliOutcome where
  stdoutLines : List String
  exitStatus : Nat
deriving DecidableEq, Repr

/-- Model of the main block of audio_splitter.py: on success print one
chunk path per line and exit 0, on any exception print its message and
exit 1. -/
def splitterMain (r : Except String SplitResult) : CliOutcome :=
  match r with
  | .ok res => { stdoutLines := res.chunks.map (fun c => c.path), exitStatus := 0 }
  | .error e => { stdoutLines := [e], exitStatus := 1 }

/-- Model of the main block of audio_details.py: on success print the
key:value lines and exit 0 from inside the try block (the SystemExit it
raises is not an Exception, so the except clause does not intercept
it); on an exception print its message, fall through, and exit 1. -/
def detailsMain (r : Except String FileDetails) : CliOutcome :=
  match r with
  | .ok d => { stdoutLines := renderDetails d, exitStatus := 0 }
  | .error e => { stdoutLines := [e], exitStatus := 1 }

/-- Model of the main block of audio_convertor.py: on success print
nothing and exit 0, on any exception print its message and exit 1. -/
def convertorMain (r : Except String Unit) : CliOutcome :=
  match r with
  | .ok _ => { stdoutLines := [], exitStatus := 0 }
  | .error e => { stdoutLines := [e], exitStatus := 1 }

/-- Model of the main block of stt_error_rate.py: on success print the
numeric error rate and exit 0, on any exception print its message and
exit 1. -/
def werMain (r : Except String ℚ) : CliOutcome :=
  match r with
  | .ok v => { stdoutLines := [toString v], exitStatus := 0 }
  | .error e => { stdoutLines := [e], exitStatus := 1 }

/-! Theorems.  First some shared inversion and arithmetic lemmas about
the splitter, then one theorem per claim. -/

/-- Duration of an AudioFile in milliseconds. -/
def durationMs (f : AudioFile) : ℚ := f.durationSeconds * 1000

/-- File size of an AudioFile in kilobytes. -/
def fileSizeKb (f : AudioFile) : ℚ := (f.byteSize : ℚ) / 1024

/-- Characterization of a successful run of split_file_by_size. -/
lemma split_ok_elim {f : AudioFile} {dir : String} {cs : Int} {ts : Nat}
    {r : SplitResult} (h : split_file_by_size f dir cs ts = .ok r) :
    fileSizeKb f ≠ 0 ∧
    r.msPerChunk = ⌈durationMs f / fileSizeKb f⌉ * cs ∧
    r.msPerChunk ≠ 0 ∧
    r.numChunks = ⌈durationMs f / (r.msPerChunk : ℚ)⌉ ∧
    r.chunks = (List.range r.numChunks.toNat).map (fun (i : Nat) =>
      { path := dir ++ toString ts ++ "_" ++
          String.mk (splitextBase (pyBasename f.filepath.data)).1 ++
          "_chunk_" ++ toString (i + 1) ++ "." ++
          String.mk (pyLstrip '.' (splitextBase (pyBasename f.filepath.data)).2)
        exportFormat := String.mk (pyLstrip '.' (splitextBase (pyBasename f.filepath.data)).2)
        sliceStart := (i : Int) * r.msPerChunk
        sliceEnd := ((i : Int) + 1) * r.msPerChunk : ChunkFile }) := by
  unfold split_file_by_size at h
  by_cases h1 : fileSizeKb f = 0
  · simp [durationMs, fileSizeKb] at h1
    simp [h1] at h
  · simp only [durationMs, fileSizeKb] at h1 ⊢
    rw [if_neg h1] at h
    by_cases h2 : (⌈f.durationSeconds * 1000 / ((f.byteSize : ℚ) / 1024)⌉ * cs : Int) = 0
    · rw [if_pos h2] at h
      exact absurd h (by simp)
    · rw [if_neg h2] at h
      simp only [Except.ok.injEq] at h
      subst h
      exact ⟨h1, rfl, h2, rfl, rfl⟩

/-- Existence of a successful run under the positivity hypotheses. -/
lemma split_ok_intro (f : AudioFile) (dir : String) (cs : Int) (ts : Nat)
    (hb : 0 < f.byteSize) (hd : 0 < f.durationSeconds) (hc : 0 < cs) :
    ∃ r, split_file_by_size f dir cs ts = .ok r := by
  have hfs : (0 : ℚ) < (f.byteSize : ℚ) / 1024 := by positivity
  have hdm : (0 : ℚ) < f.durationSeconds * 1000 / ((f.byteSize : ℚ) / 1024) := by
    positivity
  have hceil : 0 < ⌈f.durationSeconds * 1000 / ((f.byteSize : ℚ) / 1024)⌉ :=
    Int.ceil_pos.mpr hdm
  have hm : (⌈f.durationSeconds * 1000 / ((f.byteSize : ℚ) / 1024)⌉ * cs : Int) ≠ 0 :=
    ne_of_gt (mul_pos hceil hc)
  simp only [split_file_by_size, if_neg (ne_of_gt hfs), if_neg hm]
  exact ⟨_, rfl⟩

/-- C1: for every input audio file with positive byte size and positive
duration and every positive integer chunk_size, split_file_by_size
succeeds and computes ms_per_chunk as the ceiling of duration_ms over
file_size_kb, taken before the multiplication by chunk_size, and
num_chunks as the ceiling of duration_ms over ms_per_chunk. -/
theorem splitter_chunk_plan_formulas (f : AudioFile) (dir : String) (cs : Int)
    (ts : Nat) (hb : 0 < f.byteSize) (hd : 0 < f.durationSeconds) (hc : 0 < cs) :
    ∃ r, split_file_by_size f dir cs ts = .ok r ∧
      r.msPerChunk = ⌈durationMs f / fileSizeKb f⌉ * cs ∧
      r.numChunks = ⌈durationMs f / (r.msPerChunk : ℚ)⌉ := by
  obtain ⟨r, hr⟩ := split_ok_intro f dir cs ts hb hd hc
  obtain ⟨-, hm, -, hn, -⟩ := split_ok_elim hr
  exact ⟨r, hr, hm, hn⟩

/-- Scenario input of the spec: a file of 10 seconds and 1,024,000
bytes, that is 10000 ms and 1000 KB. -/
def scenarioFile : AudioFile :=
  { filepath := "a/rec.mp3", byteSize := 1024000, durationSeconds := 10,
    channels := 2, frameRate := 44100, frameWidth := 4 }

/-- Witness for C1, the scenario of the spec: a 10000 ms file of size
1000 KB split with chunk_size 100 gives ms_per_chunk 1000 and
num_chunks 10. -/
theorem splitter_chunk_plan_formulas_witness :
    ∃ r, split_file_by_size scenarioFile ("tmp/") 100 7 = .ok r ∧
      r.msPerChunk = 1000 ∧ r.numChunks = 10 := by
  obtain ⟨r, hr, hm, hn⟩ := splitter_chunk_plan_formulas scenarioFile ("tmp/") 100 7
    (by norm_num [scenarioFile]) (by norm_num [scenarioFile]) (by norm_num)
  have harg : durationMs scenarioFile / fileSizeKb scenarioFile = ((10 : Int) : ℚ) := by
    norm_num [durationMs, fileSizeKb, scenarioFile]
  have hm1000 : r.msPerChunk = 1000 := by
    rw [hm, harg, Int.ceil_intCast]
    norm_num
  refine ⟨r, hr, hm1000, ?_⟩
  rw [hn, hm1000]
  rw [show (durationMs scenarioFile / ((1000 : Int) : ℚ)) = ((10 : Int) : ℚ) by
    norm_num [durationMs, scenarioFile], Int.ceil_intCast]

/-- Evaluation lemma for split_file_by_size at inputs whose two ceilings
are known. -/
lemma split_ok_eval (f : AudioFile) (dir : String) (cs : Int) (ts : Nat) (M N : Int)
    (hfs : fileSizeKb f ≠ 0)
    (hM : ⌈durationMs f / fileSizeKb f⌉ = M)
    (hm : M * cs ≠ 0)
    (hN : ⌈durationMs f / ((M * cs : Int) : ℚ)⌉ = N) :
    split_file_by_size f dir cs ts = .ok
      { msPerChunk := M * cs, numChunks := N,
        chunks := (List.range N.toNat).map (fun (i : Nat) =>
          { path := dir ++ toString ts ++ "_" ++
              String.mk (splitextBase (pyBasename f.filepath.data)).1 ++
              "_chunk_" ++ toString (i + 1) ++ "." ++
              String.mk (pyLstrip '.' (splitextBase (pyBasename f.filepath.data)).2)
            exportFormat := String.mk (pyLstrip '.' (splitextBase (pyBasename f.filepath.data)).2)
            sliceStart := (i : Int) * (M * cs)
            sliceEnd := ((i : Int) + 1) * (M * cs) : ChunkFile }) } := by
  simp only [durationMs, fileSizeKb] at hfs hM hN
  simp only [split_file_by_size, if_neg hfs, hM, if_neg hm, hN]

/-- Result of splitting the scenario file with chunk_size 100 and
timestamp 7. -/
def scenarioSplit : SplitResult :=
  { msPerChunk := 1000, numChunks := 10,
    chunks := (List.range 10).map (fun (i : Nat) =>
      { path := "tmp/7_rec_chunk_" ++ toString (i + 1) ++ ".mp3"
        exportFormat := "mp3"
        sliceStart := (i : Int) * 1000
        sliceEnd := ((i : Int) + 1) * 1000 : ChunkFile }) }

/-- Concrete run of the splitter on the scenario input. -/
lemma split_scenario :
    split_file_by_size scenarioFile ("tmp/") 100 7 = .ok scenarioSplit := by
  rw [split_ok_eval scenarioFile ("tmp/") 100 7 10 10
    (by norm_num [fileSizeKb, scenarioFile])
    (by rw [show (durationMs scenarioFile / fileSizeKb scenarioFile) = ((10 : Int) : ℚ) by
        norm_num [durationMs, fileSizeKb, scenarioFile], Int.ceil_intCast])
    (by norm_num)
    (by rw [show (durationMs scenarioFile / (((10 : Int) * 100 : Int) : ℚ)) = ((10 : Int) : ℚ) by
        norm_num [durationMs, scenarioFile], Int.ceil_intCast])]
  exact congrArg Except.ok (by decide)

/-- C2: whenever split_file_by_size completes with a positive
ms_per_chunk, num_chunks times ms_per_chunk covers the whole duration,
and the chunks are the contiguous slices from i times ms_per_chunk to
i plus one times ms_per_chunk for the indices i below num_chunks. -/
theorem splitter_coverage_invariant (f : AudioFile) (dir : String) (cs : Int)
    (ts : Nat) (r : SplitResult) (h : split_file_by_size f dir cs ts = .ok r)
    (hm : 0 < r.msPerChunk) :
    durationMs f ≤ (r.numChunks : ℚ) * (r.msPerChunk : ℚ) ∧
    r.chunks.length = r.numChunks.toNat ∧
    ∀ i : Nat, ∀ hi : i < r.chunks.length,
      (r.chunks.get ⟨i, hi⟩).sliceStart = (i : Int) * r.msPerChunk ∧
      (r.chunks.get ⟨i, hi⟩).sliceEnd = ((i : Int) + 1) * r.msPerChunk := by
  obtain ⟨-, -, -, hn, hchunks⟩ := split_ok_elim h
  have hmq : (0 : ℚ) < (r.msPerChunk : ℚ) := by exact_mod_cast hm
  refine ⟨?_, ?_, ?_⟩
  · have hle : durationMs f / (r.msPerChunk : ℚ) ≤ (r.numChunks : ℚ) := by
      rw [hn]
      exact_mod_cast Int.le_ceil (durationMs f / (r.msPerChunk : ℚ))
    exact (div_le_iff₀ hmq).mp hle
  · rw [hchunks]
    simp
  · intro i hi
    have hg := List.get_of_eq hchunks ⟨i, hi⟩
    rw [hg, List.get_eq_getElem]
    simp

/-- Witness for C2 at the scenario input: the split succeeds with
ms_per_chunk 1000 and the 10000 ms duration is covered by the ten
1000 ms slices. -/
theorem splitter_coverage_invariant_witness :
    ∃ r, split_file_by_size scenarioFile ("tmp/") 100 7 = .ok r ∧ 0 < r.msPerChunk ∧
      durationMs scenarioFile ≤ (r.numChunks : ℚ) * (r.msPerChunk : ℚ) ∧
      ∃ hi : 0 < r.chunks.length, (r.chunks.get ⟨0, hi⟩).sliceStart = 0 ∧
        (r.chunks.get ⟨0, hi⟩).sliceEnd = 1000 := by
  obtain ⟨hcov, hlen, hget⟩ := splitter_coverage_invariant scenarioFile ("tmp/") 100 7
    scenarioSplit split_scenario (by decide)
  refine ⟨scenarioSplit, split_scenario, by decide, hcov, by decide, ?_, ?_⟩
  · rw [(hget 0 (by decide)).1]
    decide
  · rw [(hget 0 (by decide)).2]
    decide

/-- C10: every successful run of split_file_by_size returns the chunk
paths in index order, the i-th path built from the directory, the one
timestamp of the invocation, the basename root, the 1-based contiguous
index and the dot-stripped extension, and each chunk is exported with
that extension as its format. -/
theorem splitter_chunk_paths (f : AudioFile) (dir : String) (cs : Int)
    (ts : Nat) (r : SplitResult) (h : split_file_by_size f dir cs ts = .ok r) :
    r.chunks.length = r.numChunks.toNat ∧
    ∀ i : Nat, ∀ hi : i < r.chunks.length,
      (r.chunks.get ⟨i, hi⟩).path = dir ++ toString ts ++ "_" ++
        String.mk (splitextBase (pyBasename f.filepath.data)).1 ++
        "_chunk_" ++ toString (i + 1) ++ "." ++
        String.mk (pyLstrip '.' (splitextBase (pyBasename f.filepath.data)).2) ∧
      (r.chunks.get ⟨i, hi⟩).exportFormat =
        String.mk (pyLstrip '.' (splitextBase (pyBasename f.filepath.data)).2) := by
  obtain ⟨-, -, -, -, hchunks⟩ := split_ok_elim h
  refine ⟨by rw [hchunks]; simp, ?_⟩
  intro i hi
  have hg := List.get_of_eq hchunks ⟨i, hi⟩
  rw [hg, List.get_eq_getElem]
  simp

/-- Witness for C10 at the scenario input: ten chunks, the first path
being tmp/7_rec_chunk_1.mp3 and the last tmp/7_rec_chunk_10.mp3, each
exported in the mp3 format of the input extension. -/
theorem splitter_chunk_paths_witness :
    ∃ r, split_file_by_size scenarioFile ("tmp/") 100 7 = .ok r ∧
      r.chunks.length = 10 ∧
      ∃ h0 : 0 < r.chunks.length, ∃ h9 : 9 < r.chunks.length,
        (r.chunks.get ⟨0, h0⟩).path = "tmp/7_rec_chunk_1.mp3" ∧
        (r.chunks.get ⟨9, h9⟩).path = "tmp/7_rec_chunk_10.mp3" ∧
        (r.chunks.get ⟨0, h0⟩).exportFormat = "mp3" := by
  obtain ⟨hlen, hget⟩ := splitter_chunk_paths scenarioFile ("tmp/") 100 7
    scenarioSplit split_scenario
  refine ⟨scenarioSplit, split_scenario, by decide, by decide, by decide, ?_, ?_, ?_⟩
  · rw [(hget 0 (by decide)).1]
    decide
  · rw [(hget 9 (by decide)).1]
    decide
  · rw [(hget 0 (by decide)).2]
    decide

/-- Folding the decimal accumulation step over a list from any
accumulator shifts the accumulator by one decimal place per digit. -/
lemma parseDigits_foldl (l : List Char) (acc : Nat) :
    l.foldl (fun a c => 10 * a + (c.toNat - 48)) acc =
      acc * 10 ^ l.length + parseDigits l := by
  induction l generalizing acc with
  | nil => simp [parseDigits]
  | cons c l ih =>
      simp only [List.foldl_cons, List.length_cons, parseDigits] at *
      rw [ih, ih (10 * 0 + (c.toNat - 48))]
      ring

/-- Value of a concatenation of two digit strings. -/
lemma parseDigits_append (a b : List Char) :
    parseDigits (a ++ b) = parseDigits a * 10 ^ b.length + parseDigits b := by
  unfold parseDigits
  rw [List.foldl_append]
  exact parseDigits_foldl b _

/-- Data of a joined list of strings is the joined list of their data. -/
lemma join_data_foldl (l : List String) (a : String) :
    (l.foldl (fun x y => x ++ y) a).data = a.data ++ (l.map String.data).flatten := by
  induction l generalizing a with
  | nil => simp
  | cons s l ih =>
      simp only [List.foldl_cons, List.map_cons, List.flatten_cons]
      rw [ih, String.data_append, List.append_assoc]

/-- Data of String.join. -/
lemma string_join_data (l : List String) :
    (String.join l).data = (l.map String.data).flatten := by
  unfold String.join
  simpa using join_data_foldl l ("")

/-- Length of the concatenation of k copies of a digit string. -/
lemma length_join_replicate (k : Nat) (d : List Char) :
    ((List.replicate k d).flatten).length = k * d.length := by
  induction k with
  | zero => simp
  | succ k ih => simp [List.replicate_succ, ih, Nat.succ_mul, Nat.add_comm]

/-- Value of k copies of a nonzero digit string exceeds k times its
value once k is at least two: the repetition shifts the leading copy
by at least one decimal place per further copy. -/
lemma parseDigits_replicate_gt (d : List Char) (hne : d ≠ [])
    (hpos : 0 < parseDigits d) :
    ∀ k, 2 ≤ k → k * parseDigits d < parseDigits ((List.replicate k d).flatten) := by
  have hlen : 1 ≤ d.length := by
    cases d with
    | nil => exact absurd rfl hne
    | cons c l => simp
  have hstep : ∀ k, parseDigits ((List.replicate (k + 1) d).flatten) =
      parseDigits d * 10 ^ (k * d.length) + parseDigits ((List.replicate k d).flatten) := by
    intro k
    rw [List.replicate_succ, List.flatten_cons, parseDigits_append, length_join_replicate]
  intro k hk
  induction k with
  | zero => omega
  | succ k ih =>
      rcases Nat.lt_or_ge k 2 with hk2 | hk2
      · have hk1 : k = 1 := by omega
        subst hk1
        rw [hstep 1]
        have h10 : 10 ≤ 10 ^ (1 * d.length) := by
          calc 10 = 10 ^ 1 := by norm_num
          _ ≤ 10 ^ (1 * d.length) := Nat.pow_le_pow_right (by norm_num) (by omega)
        have h1 : parseDigits ((List.replicate 1 d).flatten) = parseDigits d := by
          simp
        rw [h1]
        nlinarith [hpos]
      · have ihk := ih hk2
        rw [hstep k]
        have h1 : 1 ≤ 10 ^ (k * d.length) := Nat.one_le_pow _ _ (by norm_num)
        nlinarith [hpos]

/-- C3 as amended: reached from the command line, chunk_size stays a
string, so the multiplication in split_file_by_size is sequence
repetition and the int constructor parses the concatenated digits;
whenever the repetition count is at least two and the numeric value of
chunk_size is nonzero, the resulting ms_per_chunk differs from the
specified arithmetic product of the count with that value. -/
theorem cli_chunk_size_string_repetition (f : AudioFile) (s : String)
    (hdig : s.data.all Char.isDigit) (hne : s.data ≠ [])
    (hpos : 0 < parseDigits s.data) (hfs : fileSizeKb f ≠ 0)
    (hreps : 2 ≤ (cliReps f).toNat) :
    cliMsPerChunk f s =
      .ok (parseDigits ((List.replicate (cliReps f).toNat s.data).flatten)) ∧
    parseDigits ((List.replicate (cliReps f).toNat s.data).flatten) ≠
      (cliReps f).toNat * parseDigits s.data := by
  constructor
  · unfold cliMsPerChunk pyInt
    rw [if_neg (by simpa [fileSizeKb] using hfs)]
    rw [string_join_data, List.map_replicate]
    rw [if_pos ?_]
    · constructor
      · intro hempty
        have : ((List.replicate (cliReps f).toNat s.data).flatten).length = 0 := by
          rw [hempty]
          rfl
        rw [length_join_replicate] at this
        rcases Nat.mul_eq_zero.mp this with h | h
        · omega
        · exact hne (List.length_eq_zero.mp h)
      · rw [List.all_eq_true]
        intro c hc
        rw [List.mem_flatten] at hc
        obtain ⟨w, hw, hcw⟩ := hc
        rw [List.mem_replicate] at hw
        rw [hw.2] at hcw
        exact List.all_eq_true.mp hdig c hcw
  · exact fun h => absurd h.symm
      (Nat.ne_of_lt (parseDigits_replicate_gt s.data hne hpos _ hreps))

/-- Input file of 2 ms and 1024 bytes, giving repetition count 2. -/
def file2ms : AudioFile :=
  { filepath := "a/rec.mp3", byteSize := 1024, durationSeconds := 1 / 500,
    channels := 1, frameRate := 8000, frameWidth := 2 }

/-- Repetition count of file2ms is 2. -/
lemma cliReps_file2ms : cliReps file2ms = 2 := by
  rw [cliReps, show ((file2ms.durationSeconds * 1000) / ((file2ms.byteSize : ℚ) / 1024)) =
    ((2 : Int) : ℚ) by norm_num [file2ms], Int.ceil_intCast]

/-- Witness for C3 at a concrete input: a 2 ms file of 1 KB with the
string chunk_size 100 yields ms_per_chunk 100100, not the arithmetic
product 200. -/
theorem cli_chunk_size_string_repetition_witness :
    cliMsPerChunk file2ms ("100") = .ok 100100 ∧ (100100 : Nat) ≠ 2 * 100 := by
  obtain ⟨h1, h2⟩ := cli_chunk_size_string_repetition file2ms ("100")
    (by decide) (by decide) (by decide)
    (by norm_num [fileSizeKb, file2ms])
    (by rw [cliReps_file2ms]; decide)
  constructor
  · rw [h1, cliReps_file2ms]
    exact congrArg Except.ok (by decide)
  · decide

/-- Counterexample to C3 as stated: with the string chunk_size 0 and
repetition count 2 the repeated digits parse to 0, which equals the
specified product 2 times 0, so the two do not always differ when the
repetition count is not 1. -/
theorem cli_chunk_size_repetition_counterexample :
    cliMsPerChunk file2ms ("0") = .ok 0 ∧ cliReps file2ms = 2 ∧
    (0 : Int) = cliReps file2ms * parseDigits ("0").data := by
  refine ⟨?_, cliReps_file2ms, ?_⟩
  · unfold cliMsPerChunk
    rw [if_neg (by norm_num [file2ms]), cliReps_file2ms]
    unfold pyInt
    rw [if_pos (by decide)]
    exact congrArg Except.ok (by decide)
  · rw [cliReps_file2ms]
    decide

/-- C4 failing input: split_file_by_size accepts the negative
chunk_size -100 without any rejection, computing a negative
ms_per_chunk and a negative num_chunks and returning an empty chunk
list instead of an error. -/
theorem splitter_negative_chunk_size_not_rejected :
    split_file_by_size scenarioFile ("tmp/") (-100) 7 =
      .ok { msPerChunk := -1000, numChunks := -10, chunks := [] } := by
  rw [split_ok_eval scenarioFile ("tmp/") (-100) 7 10 (-10)
    (by norm_num [fileSizeKb, scenarioFile])
    (by rw [show (durationMs scenarioFile / fileSizeKb scenarioFile) = ((10 : Int) : ℚ) by
        norm_num [durationMs, fileSizeKb, scenarioFile], Int.ceil_intCast])
    (by norm_num)
    (by rw [show (durationMs scenarioFile / (((10 : Int) * (-100) : Int) : ℚ)) =
        ((-10 : Int) : ℚ) by norm_num [durationMs, scenarioFile], Int.ceil_intCast])]
  exact congrArg Except.ok (by decide)

/-- C5: on a file of zero byte size or zero duration,
split_file_by_size stops at the first undefined division with an error
and produces no chunk files. -/
theorem splitter_zero_inputs_error (f : AudioFile) (dir : String) (cs : Int)
    (ts : Nat) (h : f.byteSize = 0 ∨ f.durationSeconds = 0) :
    ∃ msg, split_file_by_size f dir cs ts = .error msg := by
  by_cases hfs : ((f.byteSize : ℚ) / 1024) = 0
  · exact ⟨"division by zero", by simp [split_file_by_size, hfs]⟩
  · rcases h with h0 | h0
    · exact absurd (by simp [h0]) hfs
    · have hm : (⌈f.durationSeconds * 1000 / ((f.byteSize : ℚ) / 1024)⌉ * cs : Int) = 0 := by
        rw [h0]
        norm_num
      exact ⟨"division by zero", by simp [split_file_by_size, if_neg hfs, hm]⟩

/-- Witness for C5: a zero-byte file makes the splitter fail with an
error rather than return chunks. -/
theorem splitter_zero_inputs_error_witness :
    ∃ msg, split_file_by_size
      { filepath := "a/rec.mp3", byteSize := 0, durationSeconds := 10,
        channels := 2, frameRate := 44100, frameWidth := 4 } "tmp/" 100 7 =
      .error msg :=
  splitter_zero_inputs_error _ ("tmp/") 100 7 (Or.inl rfl)

/-- Stripping a character from the front leaves a list that does not
start with that character. -/
lemma pyLstrip_head_ne (c : Char) (l : List Char) :
    (pyLstrip c l).head? ≠ some c := by
  induction l with
  | nil => simp [pyLstrip]
  | cons x xs ih =>
      by_cases hx : x = c
      · simpa [pyLstrip, List.dropWhile, hx] using ih
      · simp [pyLstrip, List.dropWhile, hx]

/-- C6: the FileDetails mapping derives bit_rate as frame_rate times
frame_width times 8 with sample_rate the frame rate, reports filesize
as the byte size over 1024, and never leaves a leading dot on the
extension. -/
theorem details_fields (f : AudioFile) (mg : Option String) :
    (get_audio_details f mg).bit_rate = f.frameRate * f.frameWidth * 8 ∧
    (get_audio_details f mg).sample_rate = f.frameRate ∧
    (get_audio_details f mg).filesize = (f.byteSize : ℚ) / 1024 ∧
    (get_audio_details f mg).extension.data.head? ≠ some '.' := by
  refine ⟨rfl, rfl, rfl, ?_⟩
  exact pyLstrip_head_ne '.' (splitextBase (pyBasename f.filepath.data)).2

/-- Witness for C6 at the scenario file: bit_rate 1411200, filesize
1000 KB, extension mp3 with no leading dot. -/
theorem details_fields_witness :
    (get_audio_details scenarioFile none).bit_rate = 1411200 ∧
    (get_audio_details scenarioFile none).filesize = 1000 ∧
    (get_audio_details scenarioFile none).extension = "mp3" := by
  obtain ⟨hb, hs, hf, hh⟩ := details_fields scenarioFile none
  refine ⟨?_, ?_, by decide⟩
  · rw [hb]
    norm_num [scenarioFile]
  · rw [hf]
    norm_num [scenarioFile]

/-- C7: with either input empty, compute_wer returns 100 whatever the
word-alignment collaborator computes, so the collaborator is never
consulted on the short-circuit path. -/
theorem compute_wer_empty_returns_100 (w : String → String → ℚ)
    (ref hyp : String) (h : ref = "" ∨ hyp = "") :
    compute_wer w ref hyp = 100 := by
  rcases h with h | h <;> subst h <;> simp [compute_wer]

/-- Witness for C7: a nonempty reference against an empty hypothesis
scores 100 even under a collaborator that would report 37. -/
theorem compute_wer_empty_returns_100_witness :
    compute_wer (fun _ _ => 37) "abc" "" = 100 :=
  compute_wer_empty_returns_100 (fun _ _ => 37) ("abc") ("") (Or.inr rfl)

/-- Equal word lists are at edit distance zero. -/
lemma lev_self (l : List (List Char)) : lev l l = 0 := by
  induction l with
  | nil => simp [lev]
  | cons x xs ih => simp [lev, ih]

/-- C8: compute_wer of a string against itself is 0 for every nonempty
string with at least one word, and compute_wer never returns a negative
value on any pair of strings. -/
theorem compute_wer_self_zero_nonneg :
    (∀ x : String, x ≠ "" → pyWords x ≠ [] → compute_wer jiwerWer x x = 0) ∧
    (∀ r h : String, 0 ≤ compute_wer jiwerWer r h) := by
  constructor
  · intro x hx hw
    have hlen : x.length ≠ 0 := by
      intro h0
      have hdata : x.data = [] := List.length_eq_zero.mp h0
      exact hx (String.ext (by rw [hdata]))
    rw [compute_wer, if_neg (by simp [hlen]), jiwerWer, lev_self]
    simp
  · intro r h
    rw [compute_wer]
    by_cases hc : r.length = 0 ∨ h.length = 0
    · rw [if_pos hc]
      norm_num
    · rw [if_neg hc, jiwerWer]
      positivity

/-- Witness for C8, the scenario of the spec: the sentence the cat sat
scores 0 against itself, and the score against a dog ran is not
negative. -/
theorem compute_wer_self_zero_nonneg_witness :
    compute_wer jiwerWer ("the cat sat") ("the cat sat") = 0 ∧
    0 ≤ compute_wer jiwerWer ("the cat sat") ("a dog ran") := by
  constructor
  · exact compute_wer_self_zero_nonneg.1 ("the cat sat") (by decide) (by decide)
  · exact compute_wer_self_zero_nonneg.2 ("the cat sat") ("a dog ran")

/-- C9: each of the four utilities prints its results to standard
output and exits 0 on success, prints the message of any raised error
and exits 1 on failure, and never uses any other exit status. -/
theorem cli_exit_codes_and_output :
    (∀ res : SplitResult, splitterMain (.ok res) =
      { stdoutLines := res.chunks.map (fun c => c.path), exitStatus := 0 }) ∧
    (∀ d : FileDetails, detailsMain (.ok d) =
      { stdoutLines := renderDetails d, exitStatus := 0 }) ∧
    (convertorMain (.ok ()) = { stdoutLines := [], exitStatus := 0 }) ∧
    (∀ q : ℚ, werMain (.ok q) = { stdoutLines := [toString q], exitStatus := 0 }) ∧
    (∀ e : String,
      splitterMain (.error e) = { stdoutLines := [e], exitStatus := 1 } ∧
      detailsMain (.error e) = { stdoutLines := [e], exitStatus := 1 } ∧
      convertorMain (.error e) = { stdoutLines := [e], exitStatus := 1 } ∧
      werMain (.error e) = { stdoutLines := [e], exitStatus := 1 }) ∧
    (∀ r : Except String SplitResult,
      (splitterMain r).exitStatus = 0 ∨ (splitterMain r).exitStatus = 1) ∧
    (∀ r : Except String FileDetails,
      (detailsMain r).exitStatus = 0 ∨ (detailsMain r).exitStatus = 1) ∧
    (∀ r : Except String Unit,
      (convertorMain r).exitStatus = 0 ∨ (convertorMain r).exitStatus = 1) ∧
    (∀ r : Except String ℚ,
      (werMain r).exitStatus = 0 ∨ (werMain r).exitStatus = 1) := by
  refine ⟨fun _ => rfl, fun _ => rfl, rfl, fun _ => rfl,
    fun _ => ⟨rfl, rfl, rfl, rfl⟩, ?_, ?_, ?_, ?_⟩ <;>
    intro r <;> cases r <;>
    simp [splitterMain, detailsMain, convertorMain, werMain]

end AudioPhp
